import Mathlib

/-!
Verification of the ECAP signal-processing and dataset-extraction library
(`functions/functions.py`).

Signals are modelled as lists of rational samples (the Python code computes
with floating-point numbers; the algebraic content of the functions is over
the reals, and every concrete value appearing here is rational).  Python
float division, which raises `ZeroDivisionError` on a zero denominator, is
modelled by an `Option`-valued division.  The pandas data frame consumed by
`extract_electrodepair` is modelled as a list of rows, and the Python
exceptions the extraction can raise (`KeyError` from `get_group` / `.loc` /
`.drop`, `ValueError` from `float`, `IndexError` from indexing an empty
array) are modelled by an explicit error type, with one constructor per
raising condition.
-/

namespace ECAPLib

/-- Samples and currents: the numeric type of the embedding. -/
abbrev Q := ℚ

/-- Python float division: `a / b` raises `ZeroDivisionError` when `b = 0`,
modelled as `none`. -/
def pydiv (a b : Q) : Option Q :=
  if b = 0 then none else some (a / b)

/-- From the source, `zero_template_subtraction(signal, zero_template)`:
element-wise `signal - zero_template`. -/
def zero_template_subtraction (signal zero_template : List Q) : List Q :=
  List.zipWith (fun s z => s - z) signal zero_template

/-- From the source, `scaled_template_subtraction(no_ECAP, ECAP,
no_ECAP_current, ECAP_current)`: returns
`ECAP - ECAP_current/no_ECAP_current * no_ECAP`, the division being Python
float division. -/
def scaled_template_subtraction (no_ECAP ECAP : List Q)
    (no_ECAP_current ECAP_current : Q) : Option (List Q) :=
  (pydiv ECAP_current no_ECAP_current).map
    (fun scale => List.zipWith (fun e n => e - scale * n) ECAP no_ECAP)

/-- Python float division over the reals, for the arctan-damped variant. -/
noncomputable def pydivR (a b : ℝ) : Option ℝ :=
  if b = 0 then none else some (a / b)

/-- From the source, `damped_scaled_template_subtraction(no_ECAP, ECAP,
no_ECAP_current, ECAP_current)`: returns
`ECAP - arctan(ECAP_current/no_ECAP_current) * no_ECAP`.  `np.arctan` is
modelled by `Real.arctan` (radians, principal branch), so the signal type is
`List ℝ` here. -/
noncomputable def damped_scaled_template_subtraction (no_ECAP ECAP : List ℝ)
    (no_ECAP_current ECAP_current : ℝ) : Option (List ℝ) :=
  (pydivR ECAP_current no_ECAP_current).map
    (fun r => List.zipWith (fun e n => e - Real.arctan r * n) ECAP no_ECAP)

/-- From the source, `alternating_stimulation_sum(anodic, cathodic,
weight=0.5)`: returns `weight * anodic + (1 - weight) * cathodic`. -/
def alternating_stimulation_sum (anodic cathodic : List Q)
    (weight : Q := 1/2) : List Q :=
  List.zipWith (fun a c => weight * a + (1 - weight) * c) anodic cathodic

/-! ## The measurement table -/

/-- One row of the measurement table consumed by `extract_electrodepair`:
the columns used by the code. -/
structure Row where
  taskkey : String
  stimulatingelectrode : Int
  recordingelectrode : Int
  polarity : String
  name : String
  datapoints : List Q
  deriving DecidableEq, Repr

/-- Failure conditions of `extract_electrodepair`.  In Python they surface
as `KeyError` (a `get_group` key, or the `"time"` label in `.loc` / `.drop`,
absent), `ValueError` (`float()` on a non-numeric string) and `IndexError`
(first element of an empty array); each constructor names the condition that
raises it. -/
inductive ExtractError where
  /-- `KeyError`: no row for the requested taskkey, or none for the
  requested electrode pair. -/
  | notFound
  /-- `KeyError`: one of the two polarity groups is empty. -/
  | missingPolarity
  /-- `KeyError`: a polarity group has no row named `"time"`. -/
  | missingTime
  /-- `ValueError`: `float()` fails on a measurement name with `"cu"`
  removed. -/
  | malformedMeasurementName
  /-- `IndexError`: a polarity group has no rows besides the time row. -/
  | emptyGroup
  deriving DecidableEq, Repr

/-- Python `str.replace("cu", "")`: remove every (non-overlapping,
left-to-right) occurrence of `"cu"`. -/
def removeCu : List Char → List Char
  | 'c' :: 'u' :: rest => removeCu rest
  | c :: rest => c :: removeCu rest
  | [] => []

/-- `removeCu` on strings. -/
def pyReplaceCu (s : String) : String :=
  ⟨removeCu s.data⟩

/-- Leading run of decimal digits of a character list, and the remainder. -/
def takeDigits : List Char → List Char × List Char
  | [] => ([], [])
  | c :: cs =>
    if c.isDigit then
      let p := takeDigits cs
      (c :: p.1, p.2)
    else ([], c :: cs)

/-- Numeric value of a list of decimal digits (most significant first). -/
def digitsToNat (ds : List Char) : ℕ :=
  ds.foldl (fun acc c => 10 * acc + (c.toNat - 48)) 0

/-- Decimal core of `pyFloat`: digits, optionally a decimal point with more
digits; at least one digit in total and nothing left over. -/
def pyFloatCore (cs : List Char) : Option Q :=
  let ip := takeDigits cs
  match ip.2 with
  | [] => if ip.1.isEmpty then none else some (digitsToNat ip.1 : ℚ)
  | '.' :: rest =>
    let fp := takeDigits rest
    if fp.2.isEmpty && !(ip.1.isEmpty && fp.1.isEmpty) then
      some ((digitsToNat ip.1 : ℚ) + (digitsToNat fp.1 : ℚ) / 10 ^ fp.1.length)
    else none
  | _ => none

/-- Python `float(s)` on the decimal fragment it is applied to here: an
optional sign, then digits with an optional decimal point (`"5"`, `"5."`,
`".5"`, `"1.25"`).  Any other string raises `ValueError`, modelled as
`none`. -/
def pyFloat (s : String) : Option Q :=
  match s.data with
  | '-' :: cs => (pyFloatCore cs).map (fun q => -q)
  | '+' :: cs => pyFloatCore cs
  | cs => pyFloatCore cs

/-- The spec describes measurement-name parsing differently from the code:
a name is `<number><fixed suffix>`, the fixed suffix `"cu"` is stripped and
the remainder parsed as a float.  This definition follows the spec words,
for comparison with the code's `pyFloat (pyReplaceCu s)`. -/
def specSuffixParse (s : String) : Option Q :=
  match s.data.reverse with
  | 'u' :: 'c' :: rest => pyFloat ⟨rest.reverse⟩
  | _ => none

/-! ## The extraction pipeline, stage by stage -/

/-- Stage 1 of `extract_electrodepair`:
`dataset.groupby("taskkey").get_group(taskkey)` — the rows of the requested
taskkey, in table order. -/
def taskRows (dataset : List Row) (taskkey : String) : List Row :=
  dataset.filter (fun r => r.taskkey == taskkey)

/-- Stage 2: `.groupby(["stimulatingelectrode", "recordingelectrode"])
.get_group(electrodepair)` — further restricted to the requested electrode
pair. -/
def pairRows (dataset : List Row) (taskkey : String)
    (electrodepair : Int × Int) : List Row :=
  (taskRows dataset taskkey).filter
    (fun r => r.stimulatingelectrode == electrodepair.1 &&
      r.recordingelectrode == electrodepair.2)

/-- Stage 3: `.groupby(["polarity"]).get_group(pol)` — one polarity group of
the electrode pair's rows. -/
def polarityRows (dataset : List Row) (taskkey : String)
    (electrodepair : Int × Int) (pol : String) : List Row :=
  (pairRows dataset taskkey electrodepair).filter (fun r => r.polarity == pol)

/-- Stage 5: `.drop(labels="time")` — a polarity group with its time rows
removed, order preserved. -/
def nonTimeRows (dataset : List Row) (taskkey : String)
    (electrodepair : Int × Int) (pol : String) : List Row :=
  (polarityRows dataset taskkey electrodepair pol).filter
    (fun r => r.name != "time")

/-- Stage 6, the currents loop: names equal to `"zerotemplate"` are
skipped; every other name has each `"cu"` removed and is parsed by
`float()`, whose failure raises `ValueError`. -/
def currentsOf : List Row → Except ExtractError (List Q)
  | [] => .ok []
  | r :: rs =>
    if r.name == "zerotemplate" then currentsOf rs
    else
      match pyFloat (pyReplaceCu r.name) with
      | none => .error .malformedMeasurementName
      | some c =>
        match currentsOf rs with
        | .error e => .error e
        | .ok cs => .ok (c :: cs)

/-- The result tuple of `extract_electrodepair`, in source order:
`anodic[1:], anodic[0], cathodic[1:], cathodic[0], time, currents`. -/
structure ExtractResult where
  anodic : List (List Q)
  anodicZero : List Q
  cathodic : List (List Q)
  cathodicZero : List Q
  time : List Q
  currents : List Q
  deriving DecidableEq, Repr

/-- From the source, `extract_electrodepair(dataset, taskkey,
electrodepair)`.  The stages mirror the Python statements in order: taskkey
`get_group`, electrode-pair `get_group`, the two polarity `get_group`s, the
time row lookup `.loc["time"]` on the anodic group and the `.drop` on the
cathodic group, the currents loop over the anodic names, and finally the
positional split `xs[1:], xs[0]` of each polarity group's datapoints. -/
def extract_electrodepair (dataset : List Row) (taskkey : String)
    (electrodepair : Int × Int) : Except ExtractError ExtractResult :=
  if (taskRows dataset taskkey).isEmpty then .error .notFound
  else if (pairRows dataset taskkey electrodepair).isEmpty then
    .error .notFound
  else if (polarityRows dataset taskkey electrodepair "anodiccathodic").isEmpty
    then .error .missingPolarity
  else if (polarityRows dataset taskkey electrodepair "cathodicanodic").isEmpty
    then .error .missingPolarity
  else
    match (polarityRows dataset taskkey electrodepair "anodiccathodic").find?
        (fun r => r.name == "time") with
    | none => .error .missingTime
    | some timeRow =>
      if (polarityRows dataset taskkey electrodepair "cathodicanodic").all
          (fun r => r.name != "time") then .error .missingTime
      else
        match currentsOf
            (nonTimeRows dataset taskkey electrodepair "anodiccathodic") with
        | .error e => .error e
        | .ok currents =>
          match (nonTimeRows dataset taskkey electrodepair
                  "anodiccathodic").map Row.datapoints,
              (nonTimeRows dataset taskkey electrodepair
                  "cathodicanodic").map Row.datapoints with
          | a0 :: arest, c0 :: crest =>
            .ok ⟨arest, a0, crest, c0, timeRow.datapoints, currents⟩
          | _, _ => .error .emptyGroup

/-! ## Concrete tables used by the claims -/

/-- A row of the synthetic tables: taskkey `"T1"`, electrode pair
`(1, 2)`. -/
def mkRow (pol name : String) (dp : List Q) : Row :=
  ⟨"T1", 1, 2, pol, name, dp⟩

/-- The synthetic table of the spec's extraction test: for each polarity a
time row `[0,1,2]`, a zero-template row `[0,0,0]` and a `"5cu"` row
`[1,1,1]`. -/
def ds1 : List Row :=
  [mkRow "anodiccathodic" "time" [0, 1, 2],
   mkRow "anodiccathodic" "zerotemplate" [0, 0, 0],
   mkRow "anodiccathodic" "5cu" [1, 1, 1],
   mkRow "cathodicanodic" "time" [0, 1, 2],
   mkRow "cathodicanodic" "zerotemplate" [0, 0, 0],
   mkRow "cathodicanodic" "5cu" [1, 1, 1]]

/-- The table of the `"abccu"` error test: as `ds1` but with the measured
row named `"abccu"`, whose name does not contain a number. -/
def dsAbccu : List Row :=
  [mkRow "anodiccathodic" "time" [0, 1, 2],
   mkRow "anodiccathodic" "zerotemplate" [0, 0, 0],
   mkRow "anodiccathodic" "abccu" [1, 1, 1],
   mkRow "cathodicanodic" "time" [0, 1, 2],
   mkRow "cathodicanodic" "zerotemplate" [0, 0, 0],
   mkRow "cathodicanodic" "abccu" [1, 1, 1]]

/-- As `ds1` but the measured row is named `"1cu5cu"`: the substring
`"cu"` occurs twice and not only as a suffix. -/
def ds6 : List Row :=
  [mkRow "anodiccathodic" "time" [0, 1, 2],
   mkRow "anodiccathodic" "zerotemplate" [0, 0, 0],
   mkRow "anodiccathodic" "1cu5cu" [1, 1, 1],
   mkRow "cathodicanodic" "time" [0, 1, 2],
   mkRow "cathodicanodic" "zerotemplate" [0, 0, 0],
   mkRow "cathodicanodic" "1cu5cu" [1, 1, 1]]

/-- As `ds1` but the measured row is named `"cu5"`: `"cu"` occurs only as
a prefix, so the name is not of the form `<number>cu`. -/
def ds10 : List Row :=
  [mkRow "anodiccathodic" "time" [0, 1, 2],
   mkRow "anodiccathodic" "zerotemplate" [0, 0, 0],
   mkRow "anodiccathodic" "cu5" [1, 1, 1],
   mkRow "cathodicanodic" "time" [0, 1, 2],
   mkRow "cathodicanodic" "zerotemplate" [0, 0, 0],
   mkRow "cathodicanodic" "cu5" [1, 1, 1]]

/-- As `ds1` but the cathodic-first group has no measured `"5cu"` row, so
the two polarity groups contribute different signal counts. -/
def ds9 : List Row :=
  [mkRow "anodiccathodic" "time" [0, 1, 2],
   mkRow "anodiccathodic" "zerotemplate" [0, 0, 0],
   mkRow "anodiccathodic" "5cu" [1, 1, 1],
   mkRow "cathodicanodic" "time" [0, 1, 2],
   mkRow "cathodicanodic" "zerotemplate" [0, 0, 0]]

deriving instance DecidableEq for Except

/-! ## Helper lemmas -/

/-- Writing `zipWith` as a `map` over `zip`. -/
theorem zipWith_eq_map_zip {α β γ : Type} (f : α → β → γ) :
    ∀ (l1 : List α) (l2 : List β),
      List.zipWith f l1 l2 = (l1.zip l2).map (fun p => f p.1 p.2) := by
  intro l1
  induction l1 with
  | nil => intro l2; rfl
  | cons a l1 ih =>
    intro l2
    cases l2 with
    | nil => rfl
    | cons b l2 => simp [ih l2]

/-- Subtracting a list from itself element-wise yields zeros. -/
theorem zipWith_sub_self (l : List Q) :
    List.zipWith (fun e n => e - n) l l = List.replicate l.length 0 := by
  induction l with
  | nil => rfl
  | cons a l ih => simp [List.replicate_succ, ih]

/-- Keeping the left entry of a `zipWith` over equal-length lists. -/
theorem zipWith_left_of_length_eq (A : List Q) :
    ∀ (B : List Q), A.length = B.length →
      List.zipWith (fun a _ => a) A B = A := by
  induction A with
  | nil => intro B h; rfl
  | cons a A ih =>
    intro B h
    cases B with
    | nil => simp at h
    | cons b B => simpa using ih B (by simpa using h)

/-- Keeping the right entry of a `zipWith` over equal-length lists. -/
theorem zipWith_right_of_length_eq (A : List Q) :
    ∀ (B : List Q), A.length = B.length →
      List.zipWith (fun _ b => b) A B = B := by
  induction A with
  | nil =>
    intro B h
    cases B with
    | nil => rfl
    | cons b B => simp at h
  | cons a A ih =>
    intro B h
    cases B with
    | nil => simp at h
    | cons b B => simpa using ih B (by simpa using h)

/-! ## Claim theorems -/

/-- C1: on the synthetic table with task `"T1"`, electrode pair `(1, 2)`,
each polarity having rows time `[0,1,2]`, zerotemplate `[0,0,0]` and
`"5cu"` `[1,1,1]`, `extract_electrodepair` returns the time axis
`[0,1,2]`, the currents `[5]`, the anodic signals `[[1,1,1]]` and the
cathodic zero-template signal `[0,0,0]`. -/
theorem extract_electrodepair_synthetic_table :
    extract_electrodepair ds1 "T1" (1, 2) =
      .ok ⟨[[1, 1, 1]], [0, 0, 0], [[1, 1, 1]], [0, 0, 0], [0, 1, 2], [5]⟩ := by
  decide

/-- C2: with a nonzero sub-threshold current, `scaled_template_subtraction`
returns element-wise `supra - (supraC / subC) * sub`, and self-subtraction
with equal signal and equal currents yields the all-zero signal. -/
theorem scaled_template_subtraction_spec (sub supra : List Q)
    (subC supraC : Q) (h : subC ≠ 0) (hlen : sub.length = supra.length) :
    scaled_template_subtraction sub supra subC supraC =
      some ((supra.zip sub).map (fun p => p.1 - supraC / subC * p.2)) ∧
    scaled_template_subtraction sub sub subC subC =
      some (List.replicate sub.length 0) := by
  constructor
  · simp [scaled_template_subtraction, pydiv, h, zipWith_eq_map_zip]
  · simp only [scaled_template_subtraction, pydiv, if_neg h, div_self h]
    show some (List.zipWith (fun e n => e - 1 * n) sub sub) = _
    rw [show (fun (e : Q) (n : Q) => e - 1 * n) = (fun e n => e - n) by
      funext e n; ring]
    rw [zipWith_sub_self]

/-- Witness for C2 at `sub = [2]`, `supra = [3]`, `subC = 1`,
`supraC = 4`. -/
theorem scaled_template_subtraction_spec_witness :
    (1 : Q) ≠ 0 ∧ ([2] : List Q).length = ([3] : List Q).length ∧
    (scaled_template_subtraction [2] [3] 1 4 =
      some ((([3] : List Q).zip [2]).map (fun p => p.1 - 4 / 1 * p.2)) ∧
    scaled_template_subtraction [2] [2] 1 1 =
      some (List.replicate ([2] : List Q).length 0)) :=
  ⟨by norm_num, rfl, scaled_template_subtraction_spec [2] [3] 1 4
    (by norm_num) rfl⟩

/-- C4: with a zero sub-threshold current the scaling division raises
`ZeroDivisionError`, so `scaled_template_subtraction` fails instead of
returning an ordinary signal. -/
theorem scaled_template_subtraction_zero_current (sub supra : List Q)
    (supraC : Q) :
    scaled_template_subtraction sub supra 0 supraC = none := by
  simp [scaled_template_subtraction, pydiv]

/-- C8: `alternating_stimulation_sum` at weight `1/2` is the element-wise
average, at weight `1` the anodic signal, at weight `0` the cathodic
signal. -/
theorem alternating_stimulation_sum_spec (A B : List Q)
    (h : A.length = B.length) :
    alternating_stimulation_sum A B (1/2) =
      List.zipWith (fun a b => (1/2 : Q) * a + (1/2 : Q) * b) A B ∧
    alternating_stimulation_sum A B 1 = A ∧
    alternating_stimulation_sum A B 0 = B := by
  refine ⟨?_, ?_, ?_⟩
  · rw [alternating_stimulation_sum]
    norm_num
  · rw [alternating_stimulation_sum]
    rw [show (fun (a : Q) (c : Q) => 1 * a + (1 - 1) * c) =
      (fun (a : Q) (_ : Q) => a) by funext a c; ring]
    exact zipWith_left_of_length_eq A B h
  · rw [alternating_stimulation_sum]
    rw [show (fun (a : Q) (c : Q) => 0 * a + (1 - 0) * c) =
      (fun (_ : Q) (c : Q) => c) by funext a c; ring]
    exact zipWith_right_of_length_eq A B h

/-- Witness for C8 at `A = [1, 2]`, `B = [3, 4]`. -/
theorem alternating_stimulation_sum_spec_witness :
    ([1, 2] : List Q).length = ([3, 4] : List Q).length ∧
    (alternating_stimulation_sum [1, 2] [3, 4] (1/2) =
      List.zipWith (fun a b => (1/2 : Q) * a + (1/2 : Q) * b) [1, 2] [3, 4] ∧
    alternating_stimulation_sum [1, 2] [3, 4] 1 = [1, 2] ∧
    alternating_stimulation_sum [1, 2] [3, 4] 0 = [3, 4]) :=
  ⟨rfl, alternating_stimulation_sum_spec [1, 2] [3, 4] rfl⟩

/-- C10: current parsing removes every occurrence of `"cu"`, not only a
trailing suffix: the name `"cu5"` is not of the form `<number>cu`, yet
extraction on `ds10` succeeds and yields the current magnitude `5`. -/
theorem extract_electrodepair_removes_every_cu :
    pyReplaceCu "cu5" = "5" ∧ specSuffixParse "cu5" = none ∧
    pyReplaceCu "1cu5cu" = "15" ∧ specSuffixParse "1cu5cu" = none ∧
    extract_electrodepair ds10 "T1" (1, 2) =
      .ok ⟨[[1, 1, 1]], [0, 0, 0], [[1, 1, 1]], [0, 0, 0], [0, 1, 2], [5]⟩ := by
  decide

/-- Counterexample to C6 as stated: the spec-side suffix parse of the name
`"1cu5cu"` fails, so the claim requires extraction to fail with
`MalformedMeasurementName`; the code instead succeeds and reports the
current `15`. -/
theorem extract_electrodepair_suffix_parse_counterexample :
    specSuffixParse "1cu5cu" = none ∧
    extract_electrodepair ds6 "T1" (1, 2) =
      .ok ⟨[[1, 1, 1]], [0, 0, 0], [[1, 1, 1]], [0, 0, 0], [0, 1, 2], [15]⟩ := by
  decide

/-- C6 (amended): a measurement name other than the zero-template marker is
parsed by removing every occurrence of `"cu"` and applying `float()`; when
that parse fails the currents loop fails with `MalformedMeasurementName`,
and in particular extraction on the `"abccu"` table fails that way. -/
theorem currentsOf_malformed (rows : List Row) (r : Row) (hr : r ∈ rows)
    (hname : r.name ≠ "zerotemplate")
    (hparse : pyFloat (pyReplaceCu r.name) = none) :
    currentsOf rows = .error .malformedMeasurementName ∧
    extract_electrodepair dsAbccu "T1" (1, 2) =
      .error .malformedMeasurementName := by
  refine ⟨?_, by decide⟩
  induction rows with
  | nil => cases hr
  | cons r0 rs ih =>
    rw [currentsOf]
    rcases List.mem_cons.mp hr with hEq | hMem
    · subst hEq
      rw [if_neg (by simpa using hname), hparse]
    · by_cases h0 : r0.name = "zerotemplate"
      · rw [if_pos (by simpa using h0)]
        exact ih hMem
      · rw [if_neg (by simpa using h0)]
        cases hp : pyFloat (pyReplaceCu r0.name) with
        | none => rfl
        | some c => rw [ih hMem]

/-- Witness for C6 (amended) at the single-row list of an `"abccu"`
measurement. -/
theorem currentsOf_malformed_witness :
    currentsOf [mkRow "anodiccathodic" "abccu" [1]] =
      .error .malformedMeasurementName ∧
    extract_electrodepair dsAbccu "T1" (1, 2) =
      .error .malformedMeasurementName :=
  currentsOf_malformed [mkRow "anodiccathodic" "abccu" [1]]
    (mkRow "anodiccathodic" "abccu" [1]) (by decide) (by decide) (by decide)

/-- C3: with a nonzero sub-threshold current,
`damped_scaled_template_subtraction` returns element-wise
`supra - arctan (supraC / subC) * sub`; its effective scaling factor
`arctan (supraC / subC)` lies strictly within `(-π/2, π/2)` whatever the
current ratio, whereas the effective scale of `scaled_template_subtraction`
exceeds every bound for suitable currents. -/
theorem damped_scaled_template_subtraction_spec (sub supra : List ℝ)
    (subC supraC : ℝ) (h : subC ≠ 0) :
    damped_scaled_template_subtraction sub supra subC supraC =
      some ((supra.zip sub).map
        (fun p => p.1 - Real.arctan (supraC / subC) * p.2)) ∧
    (-(Real.pi / 2) < Real.arctan (supraC / subC) ∧
      Real.arctan (supraC / subC) < Real.pi / 2) ∧
    ∀ M : Q, ∃ c1 c2 : Q, c1 ≠ 0 ∧
      scaled_template_subtraction [1] [0] c1 c2 = some [0 - c2 / c1 * 1] ∧
      M < c2 / c1 := by
  refine ⟨?_, ⟨Real.neg_pi_div_two_lt_arctan _, Real.arctan_lt_pi_div_two _⟩,
    ?_⟩
  · simp [damped_scaled_template_subtraction, pydivR, h, zipWith_eq_map_zip]
  · intro M
    refine ⟨1, M + 1, one_ne_zero, ?_, by simp⟩
    simp [scaled_template_subtraction, pydiv]

/-- Witness for C3 at `sub = [1]`, `supra = [0]`, `subC = 1`,
`supraC = 1`. -/
theorem damped_scaled_template_subtraction_spec_witness :
    (1 : ℝ) ≠ 0 ∧
    (damped_scaled_template_subtraction [1] [0] 1 1 =
      some ((([0] : List ℝ).zip [1]).map
        (fun p => p.1 - Real.arctan ((1 : ℝ) / 1) * p.2)) ∧
    (-(Real.pi / 2) < Real.arctan ((1 : ℝ) / 1) ∧
      Real.arctan ((1 : ℝ) / 1) < Real.pi / 2) ∧
    ∀ M : Q, ∃ c1 c2 : Q, c1 ≠ 0 ∧
      scaled_template_subtraction [1] [0] c1 c2 = some [0 - c2 / c1 * 1] ∧
      M < c2 / c1) :=
  ⟨one_ne_zero, damped_scaled_template_subtraction_spec [1] [0] 1 1
    one_ne_zero⟩

/-- C5: extraction fails with `NotFound` when no row matches the task key,
or none of its rows matches the electrode pair, and fails with
`MissingPolarity` when rows match but one of the two polarity groups is
empty. -/
theorem extract_electrodepair_error_spec (ds : List Row) (tk : String)
    (ep : Int × Int) :
    ((∀ r ∈ ds, r.taskkey ≠ tk) →
       extract_electrodepair ds tk ep = .error .notFound) ∧
    ((∀ r ∈ ds, r.taskkey = tk →
        ¬(r.stimulatingelectrode = ep.1 ∧ r.recordingelectrode = ep.2)) →
       extract_electrodepair ds tk ep = .error .notFound) ∧
    ((∃ r ∈ ds, r.taskkey = tk ∧ r.stimulatingelectrode = ep.1 ∧
        r.recordingelectrode = ep.2) →
     ((∀ r ∈ ds, r.taskkey = tk → r.stimulatingelectrode = ep.1 →
         r.recordingelectrode = ep.2 → r.polarity ≠ "anodiccathodic") ∨
      (∀ r ∈ ds, r.taskkey = tk → r.stimulatingelectrode = ep.1 →
         r.recordingelectrode = ep.2 → r.polarity ≠ "cathodicanodic")) →
       extract_electrodepair ds tk ep = .error .missingPolarity) := by
  refine ⟨?_, ?_, ?_⟩
  · intro h1
    have ht : (taskRows ds tk).isEmpty = true := by
      rw [List.isEmpty_iff, taskRows, List.filter_eq_nil_iff]
      intro r hr
      simpa using h1 r hr
    rw [extract_electrodepair, if_pos ht]
  · intro h2
    have hp : (pairRows ds tk ep).isEmpty = true := by
      rw [List.isEmpty_iff, pairRows, List.filter_eq_nil_iff]
      intro r hr
      rw [taskRows, List.mem_filter] at hr
      simpa using h2 r hr.1 (by simpa using hr.2)
    rw [extract_electrodepair]
    by_cases ht : (taskRows ds tk).isEmpty
    · rw [if_pos ht]
    · rw [if_neg ht, if_pos hp]
  · rintro ⟨r, hr, htk, hs, hre⟩ hpol
    have hrt : r ∈ taskRows ds tk := by
      rw [taskRows, List.mem_filter]
      exact ⟨hr, by simp [htk]⟩
    have hrp : r ∈ pairRows ds tk ep := by
      rw [pairRows, List.mem_filter]
      exact ⟨hrt, by simp [hs, hre]⟩
    have ht : (taskRows ds tk).isEmpty = false := by
      rw [List.isEmpty_eq_false]
      exact List.ne_nil_of_mem hrt
    have hpe : (pairRows ds tk ep).isEmpty = false := by
      rw [List.isEmpty_eq_false]
      exact List.ne_nil_of_mem hrp
    have pair_mem : ∀ x ∈ pairRows ds tk ep, x ∈ ds ∧ x.taskkey = tk ∧
        x.stimulatingelectrode = ep.1 ∧ x.recordingelectrode = ep.2 := by
      intro x hx
      rw [pairRows, List.mem_filter, taskRows, List.mem_filter] at hx
      have h2 := hx.2
      simp only [Bool.and_eq_true, beq_iff_eq] at h2
      exact ⟨hx.1.1, by simpa using hx.1.2, h2.1, h2.2⟩
    rw [extract_electrodepair, if_neg (by simp [ht]), if_neg (by simp [hpe])]
    rcases hpol with hano | hcat
    · have hpa :
          (polarityRows ds tk ep "anodiccathodic").isEmpty = true := by
        rw [List.isEmpty_iff, polarityRows, List.filter_eq_nil_iff]
        intro x hx
        obtain ⟨hxds, hxtk, hxs, hxr⟩ := pair_mem x hx
        simpa using hano x hxds hxtk hxs hxr
      rw [if_pos hpa]
    · have hpc :
          (polarityRows ds tk ep "cathodicanodic").isEmpty = true := by
        rw [List.isEmpty_iff, polarityRows, List.filter_eq_nil_iff]
        intro x hx
        obtain ⟨hxds, hxtk, hxs, hxr⟩ := pair_mem x hx
        simpa using hcat x hxds hxtk hxs hxr
      by_cases hpa : (polarityRows ds tk ep "anodiccathodic").isEmpty
      · rw [if_pos hpa]
      · rw [if_neg hpa, if_pos hpc]

/-- Witness for C5: an empty table, a table whose only row is for another
electrode pair, and a table whose rows are all anodic-first. -/
theorem extract_electrodepair_error_spec_witness :
    extract_electrodepair [] "T1" (1, 2) = .error .notFound ∧
    extract_electrodepair [mkRow "anodiccathodic" "time" [0]] "T1" (3, 4) =
      .error .notFound ∧
    extract_electrodepair [mkRow "anodiccathodic" "time" [0]] "T1" (1, 2) =
      .error .missingPolarity :=
  ⟨(extract_electrodepair_error_spec [] "T1" (1, 2)).1 (by simp),
   (extract_electrodepair_error_spec [mkRow "anodiccathodic" "time" [0]]
     "T1" (3, 4)).2.1 (by decide),
   (extract_electrodepair_error_spec [mkRow "anodiccathodic" "time" [0]]
     "T1" (1, 2)).2.2 (by decide) (by decide)⟩

/-- C7: when each polarity group, after removing its time row, starts with
the zero-template row, a successful extraction returns that first row's
samples as the polarity's zero-current reference signal, returns the
remaining rows' samples as the signal sequence, and computes the currents
from the remaining rows only — the zero-template contributes no current. -/
theorem extract_electrodepair_zero_template_split
    (ds : List Row) (tk : String) (ep : Int × Int)
    (timeRow r0 c0 : Row) (arest crest : List Row) (cs : List Q)
    (hfa : (polarityRows ds tk ep "anodiccathodic").find?
        (fun r => r.name == "time") = some timeRow)
    (hct : ((polarityRows ds tk ep "cathodicanodic").all
        (fun r => r.name != "time")) = false)
    (ha : nonTimeRows ds tk ep "anodiccathodic" = r0 :: arest)
    (hc : nonTimeRows ds tk ep "cathodicanodic" = c0 :: crest)
    (h0 : r0.name = "zerotemplate") (hc0 : c0.name = "zerotemplate")
    (hcs : currentsOf arest = .ok cs) :
    extract_electrodepair ds tk ep =
      .ok ⟨arest.map Row.datapoints, r0.datapoints,
        crest.map Row.datapoints, c0.datapoints, timeRow.datapoints, cs⟩ ∧
    currentsOf (r0 :: arest) = currentsOf arest := by
  have hcur : currentsOf (r0 :: arest) = currentsOf arest := by
    simp [currentsOf, h0]
  have hr0n : r0 ∈ nonTimeRows ds tk ep "anodiccathodic" := by
    rw [ha]
    exact List.mem_cons_self r0 arest
  have hc0n : c0 ∈ nonTimeRows ds tk ep "cathodicanodic" := by
    rw [hc]
    exact List.mem_cons_self c0 crest
  have hr0 : r0 ∈ polarityRows ds tk ep "anodiccathodic" := by
    rw [nonTimeRows] at hr0n
    exact List.mem_of_mem_filter hr0n
  have hc0m : c0 ∈ polarityRows ds tk ep "cathodicanodic" := by
    rw [nonTimeRows] at hc0n
    exact List.mem_of_mem_filter hc0n
  have hr0p : r0 ∈ pairRows ds tk ep := by
    have hx := hr0
    rw [polarityRows] at hx
    exact List.mem_of_mem_filter hx
  have hr0t : r0 ∈ taskRows ds tk := by
    have hx := hr0p
    rw [pairRows] at hx
    exact List.mem_of_mem_filter hx
  have h1 : (taskRows ds tk).isEmpty = false :=
    List.isEmpty_eq_false.mpr (List.ne_nil_of_mem hr0t)
  have h2 : (pairRows ds tk ep).isEmpty = false :=
    List.isEmpty_eq_false.mpr (List.ne_nil_of_mem hr0p)
  have h3 : (polarityRows ds tk ep "anodiccathodic").isEmpty = false :=
    List.isEmpty_eq_false.mpr (List.ne_nil_of_mem hr0)
  have h4 : (polarityRows ds tk ep "cathodicanodic").isEmpty = false :=
    List.isEmpty_eq_false.mpr (List.ne_nil_of_mem hc0m)
  refine ⟨?_, hcur⟩
  rw [extract_electrodepair, if_neg (by simp [h1]), if_neg (by simp [h2]),
    if_neg (by simp [h3]), if_neg (by simp [h4]), hfa]
  simp [hct, ha, hc, hcur, hcs]

/-- Witness for C7 at the synthetic table `ds1`. -/
theorem extract_electrodepair_zero_template_split_witness :
    extract_electrodepair ds1 "T1" (1, 2) =
      .ok ⟨[mkRow "anodiccathodic" "5cu" [1, 1, 1]].map Row.datapoints,
        (mkRow "anodiccathodic" "zerotemplate" [0, 0, 0]).datapoints,
        [mkRow "cathodicanodic" "5cu" [1, 1, 1]].map Row.datapoints,
        (mkRow "cathodicanodic" "zerotemplate" [0, 0, 0]).datapoints,
        (mkRow "anodiccathodic" "time" [0, 1, 2]).datapoints, [5]⟩ ∧
    currentsOf
        [mkRow "anodiccathodic" "zerotemplate" [0, 0, 0],
         mkRow "anodiccathodic" "5cu" [1, 1, 1]] =
      currentsOf [mkRow "anodiccathodic" "5cu" [1, 1, 1]] :=
  extract_electrodepair_zero_template_split ds1 "T1" (1, 2)
    (mkRow "anodiccathodic" "time" [0, 1, 2])
    (mkRow "anodiccathodic" "zerotemplate" [0, 0, 0])
    (mkRow "cathodicanodic" "zerotemplate" [0, 0, 0])
    [mkRow "anodiccathodic" "5cu" [1, 1, 1]]
    [mkRow "cathodicanodic" "5cu" [1, 1, 1]] [5]
    (by decide) (by decide) (by decide) (by decide) (by decide) (by decide)
    (by decide)

/-- Counterexample to C9 as stated: on `ds9`, whose cathodic-first group
has no measured row besides time and zero template, extraction succeeds
with one anodic signal and zero cathodic signals. -/
theorem extract_electrodepair_count_counterexample :
    extract_electrodepair ds9 "T1" (1, 2) =
      .ok ⟨[[1, 1, 1]], [0, 0, 0], [], [0, 0, 0], [0, 1, 2], [5]⟩ ∧
    ([[1, 1, 1]] : List (List Q)).length ≠ ([] : List (List Q)).length := by
  decide

/-- C9 (amended): when the two polarity groups contain equally many
non-time rows, a successful extraction returns equally many anodic and
cathodic signals. -/
theorem extract_electrodepair_signal_counts
    (ds : List Row) (tk : String) (ep : Int × Int) (res : ExtractResult)
    (h : extract_electrodepair ds tk ep = .ok res)
    (hlen : (nonTimeRows ds tk ep "anodiccathodic").length =
      (nonTimeRows ds tk ep "cathodicanodic").length) :
    res.anodic.length = res.cathodic.length := by
  rw [extract_electrodepair] at h
  split at h
  · exact absurd h (by simp)
  · split at h
    · exact absurd h (by simp)
    · split at h
      · exact absurd h (by simp)
      · split at h
        · exact absurd h (by simp)
        · split at h
          · exact absurd h (by simp)
          · split at h
            · exact absurd h (by simp)
            · split at h
              · exact absurd h (by simp)
              · split at h
                · rename_i a0 arest c0 crest hA hC
                  have hres := (Except.ok.injEq _ _).mp h.symm
                  have hAlen := congrArg List.length hA
                  have hClen := congrArg List.length hC
                  simp only [List.length_map, List.length_cons] at hAlen hClen
                  rw [hres]
                  show arest.length = crest.length
                  omega
                · exact absurd h (by simp)

/-- Witness for C9 (amended) at the synthetic table `ds1`. -/
theorem extract_electrodepair_signal_counts_witness :
    (⟨[[1, 1, 1]], [0, 0, 0], [[1, 1, 1]], [0, 0, 0], [0, 1, 2],
        [5]⟩ : ExtractResult).anodic.length =
      (⟨[[1, 1, 1]], [0, 0, 0], [[1, 1, 1]], [0, 0, 0], [0, 1, 2],
        [5]⟩ : ExtractResult).cathodic.length :=
  extract_electrodepair_signal_counts ds1 "T1" (1, 2)
    ⟨[[1, 1, 1]], [0, 0, 0], [[1, 1, 1]], [0, 0, 0], [0, 1, 2], [5]⟩
    (by decide) (by decide)

end ECAPLib
